import Mathlib

/-!
Verification development for the mail-filter repository.

The definitions below are a shallow embedding of the TypeScript sources:

* `src/types.ts`              — data model (`FilterAction`, `FilterDecision`, ...)
* `src/aiProcessor.ts`        — `AIProcessor.analyzeEmails` / `parseResponse`
* `src/langchainIntegration.ts` — `EmailFilteringChain.batchEmails`,
  `processBatches`, `processBatchWithRetry`, `calculateDelay`,
  `isRetryableError`
* `src/rules.ts`              — `RulesManager` (`getRules`, custom-rule parsing)
* `src/emailFiltering.ts`     — `EmailFilteringAgent.executeAction`

JavaScript numbers that feed arithmetic (delays, confidences) are modelled
as rationals (`ℚ`); the values involved (small integers, 0.25, 0.5) are
exact in binary floating point, so the rational model agrees with the
source.  Asynchronous calls to external services (the OpenAI backend, the
Gmail client) are modelled by explicit behaviour oracles passed as
arguments; `await`-ing them is sequential in the source (single logical
thread), so the embedding is plain function composition.
-/

/-! ## Data model (src/types.ts) -/

/-- `FilterAction` from src/types.ts: `"delete" | "keep" | "archive" | "mark_read"`. -/
inductive FilterAction where
  | delete
  | keep
  | archive
  | mark_read
deriving DecidableEq

/-- `FilterDecision` from src/types.ts.  `confidence : number` is modelled as `ℚ`. -/
structure FilterDecision where
  emailId : String
  action : FilterAction
  reason : String
  confidence : ℚ
deriving DecidableEq

/-- `EmailSummary` as actually constructed by
`EmailFilteringChain.prepareEmails` (src/langchainIntegration.ts lines 80-85):
`id`, `from`, `subject`, `snippet`.  (src/types.ts also declares `dateStr` and
`ageInDays`, but those fields are consumed only by prompt construction, which
is not modelled, and are absent from the objects `prepareEmails` builds.)
The field `from` is renamed `fromAddr` because `from` is a Lean keyword. -/
structure EmailSummary where
  id : String
  fromAddr : String
  subject : String
  snippet : String
deriving DecidableEq, Inhabited

/-- `Email` from src/types.ts (the `date : Date` field, unused by the modelled
code paths, is omitted; `from`/`to` are renamed `fromAddr`/`toAddr`). -/
structure Email where
  id : String
  threadId : String
  fromAddr : String
  toAddr : String
  subject : String
  body : String
  snippet : String
  labels : List String
  isUnread : Bool
deriving DecidableEq

/-- `FilterRule` from src/types.ts.  `priority : number` is an integer in every
rule the program constructs; modelled as `ℤ`. -/
structure FilterRule where
  id : String
  name : String
  description : String
  condition : String
  action : FilterAction
  priority : ℤ
deriving DecidableEq

/-! ## String helpers

The source uses JavaScript's `String.prototype.toLowerCase`,
`String.prototype.includes` and `String.prototype.startsWith` on plain ASCII
patterns.  They are modelled on `List Char`. -/

/-- ASCII lower-casing of one character (the patterns matched by the source are
ASCII, so this agrees with JavaScript's `toLowerCase` on the relevant inputs). -/
def lowerChar (c : Char) : Char :=
  if 'A' ≤ c ∧ c ≤ 'Z' then Char.ofNat (c.toNat + 32) else c

/-- `leadsWith pat l` : the list `pat` is an initial segment of `l`. -/
def leadsWith : List Char → List Char → Bool
  | [], _ => true
  | _ :: _, [] => false
  | a :: as, b :: bs => a == b && leadsWith as bs

/-- `occursIn pat l` : the list `pat` occurs contiguously inside `l`
(JavaScript `l.includes(pat)`). -/
def occursIn : List Char → List Char → Bool
  | pat, [] => pat.isEmpty
  | pat, c :: rest => leadsWith pat (c :: rest) || occursIn pat rest

/-! ## Classifier adapter (src/aiProcessor.ts) -/

/-- Abstraction of the parse-and-validate stage of
`AIProcessor.parseResponse` (src/aiProcessor.ts lines 168-176): the regex
extraction `content.match(/\x7b[\s\S]*\x7d/)`, `JSON.parse`, and zod
validation against `AIResponseSchema` either fail (`malformed` — no JSON
found, a parse exception, or a schema mismatch) or yield the validated
`decisions` array (`valid`). -/
inductive ParsedResponse where
  | malformed
  | valid (decisions : List FilterDecision)

/-- Behaviour of one backend invocation `this.model.invoke(...)` in
`AIProcessor.analyzeEmails`: the call either throws (`thrown`) or returns
content whose parse outcome is `content` (`ok content`). -/
inductive BackendResult where
  | thrown
  | ok (content : ParsedResponse)

/-- The default decision synthesized by `parseResponse` for a message whose
identifier is absent from a validated response (src/aiProcessor.ts lines 189-194). -/
def defaultNoDecision (id : String) : FilterDecision :=
  { emailId := id
    action := .keep
    reason := "No explicit decision from AI, keeping by default"
    confidence := 1/2 }

/-- The default decision used when the response cannot be parsed or validated
(src/aiProcessor.ts lines 201-206). -/
def defaultParseFailure (id : String) : FilterDecision :=
  { emailId := id
    action := .keep
    reason := "Failed to parse AI response, keeping by default"
    confidence := 0 }

/-- The default decision used when the backend invocation throws
(src/aiProcessor.ts lines 73-78). -/
def defaultAnalysisFailure (id : String) : FilterDecision :=
  { emailId := id
    action := .keep
    reason := "AI analysis failed, keeping email by default"
    confidence := 0 }

/-- Lookup in the `Map` built by `parseResponse`
(`new Map(validated.decisions.map(d => [d.emailId, d]))`): when several
decisions share an `emailId`, later `Map` insertions overwrite earlier ones,
so the lookup returns the **last** decision with the given identifier. -/
def lastDecisionFor (ds : List FilterDecision) (id : String) : Option FilterDecision :=
  (ds.filter (fun d => d.emailId == id)).getLast?

/-- `AIProcessor.parseResponse` (src/aiProcessor.ts lines 164-208), over the
abstracted parse outcome: a validated response is completed to exactly one
decision per input message (absent identifiers get `defaultNoDecision`);
a malformed response degrades the whole batch to `defaultParseFailure`. -/
def parseResponse (content : ParsedResponse) (emails : List EmailSummary) :
    List FilterDecision :=
  match content with
  | .valid ds => emails.map (fun e => (lastDecisionFor ds e.id).getD (defaultNoDecision e.id))
  | .malformed => emails.map (fun e => defaultParseFailure e.id)

/-- `AIProcessor.analyzeEmails` (src/aiProcessor.ts lines 46-80).  The rules
argument of the source only feeds prompt construction and does not influence
the returned decisions, so it is not a parameter here.  An empty batch
short-circuits to `[]`; a backend throw is caught and the whole batch defaults
to `defaultAnalysisFailure`; otherwise the response goes through
`parseResponse`.  The function is total: it never raises. -/
def analyzeEmails (emails : List EmailSummary) (backend : BackendResult) :
    List FilterDecision :=
  if emails.isEmpty then []
  else
    match backend with
    | .thrown => emails.map (fun e => defaultAnalysisFailure e.id)
    | .ok content => parseResponse content emails

/-! ## Batch Orchestrator (src/langchainIntegration.ts) -/

/-- `RetryConfig` from src/langchainIntegration.ts lines 24-28.  The `number`
delay fields are modelled as `ℚ`. -/
structure RetryConfig where
  maxRetries : ℕ
  baseDelayMs : ℚ
  maxDelayMs : ℚ

/-- `DEFAULT_RETRY_CONFIG` (src/langchainIntegration.ts lines 30-34). -/
def DEFAULT_RETRY_CONFIG : RetryConfig :=
  { maxRetries := 3, baseDelayMs := 1000, maxDelayMs := 30000 }

/-- `EmailFilteringChain.prepareEmails` (src/langchainIntegration.ts lines
77-86): project each `Email` to a summary; JavaScript
`email.snippet || email.body.substring(0, 500)` falls back to the body
excerpt exactly when the snippet is the empty string (falsy). -/
def prepareEmails (emails : List Email) : List EmailSummary :=
  emails.map (fun email =>
    { id := email.id
      fromAddr := email.fromAddr
      subject := email.subject
      snippet := if email.snippet = "" then String.mk (email.body.toList.take 500)
                 else email.snippet })

/-- `EmailFilteringChain.batchEmails` (src/langchainIntegration.ts lines
91-103): the loop `for (let i = 0; i < emails.length; i += batchSize)`
pushing `emails.slice(i, i + batchSize)`.  For `batchSize = 0` the source
loop does not terminate (see `batchLoopTerminates`); the `0` case below is
an unreachable guard needed only to make the Lean function total. -/
def batchEmails : List EmailSummary → ℕ → List (List EmailSummary)
  | [], _ => []
  | _ :: _, 0 => []
  | e :: es, B + 1 =>
    (e :: es).take (B + 1) :: batchEmails ((e :: es).drop (B + 1)) (B + 1)
termination_by emails B => emails.length
decreasing_by
  simp only [List.length_drop]
  simp only [List.length_cons]
  omega

/-- Termination predicate of the `batchEmails` loop
`for (let i = 0; i < emails.length; i += batchSize)` over an integer batch
size `B`: starting from `i = 0`, after `n` iterations the counter is `n * B`,
and the loop exits as soon as the counter reaches `len = emails.length`.
The loop terminates iff some iterate reaches `len`. -/
def batchLoopTerminates (len : ℕ) (B : ℤ) : Prop :=
  ∃ n : ℕ, (len : ℤ) ≤ n * B

/-- `EmailFilteringChain.isRetryableError` (src/langchainIntegration.ts lines
221-254): lower-case the message and look for the retryable substrings. -/
def isRetryableError (msg : String) : Bool :=
  let m := msg.toList.map lowerChar
  occursIn "rate limit".toList m || occursIn "429".toList m ||
  occursIn "timeout".toList m || occursIn "timed out".toList m ||
  occursIn "500".toList m || occursIn "502".toList m ||
  occursIn "503".toList m || occursIn "504".toList m ||
  occursIn "econnreset".toList m || occursIn "econnrefused".toList m ||
  occursIn "network".toList m

/-- `EmailFilteringChain.calculateDelay` (src/langchainIntegration.ts lines
204-216).  `r` is the value returned by `Math.random()` (uniform on `[0,1)`,
injectable here for determinism):
exponential delay `baseDelayMs * 2 ^ attempt`, capped at `maxDelayMs`,
perturbed by the jitter `cappedDelay * 0.25 * (r * 2 - 1)`, floored. -/
def calculateDelay (cfg : RetryConfig) (attempt : ℕ) (r : ℚ) : ℤ :=
  let exponentialDelay := cfg.baseDelayMs * 2 ^ attempt
  let cappedDelay := min exponentialDelay cfg.maxDelayMs
  let jitter := cappedDelay * (1/4) * (r * 2 - 1)
  Int.floor (cappedDelay + jitter)

/-- Behaviour of one Classifier attempt as seen by
`processBatchWithRetry`: `this.aiProcessor.analyzeEmails(batch, rules)`
either resolves with decisions (`success`) or rejects with an error whose
message is `message` (`failure`). -/
inductive AttemptOutcome where
  | success (decisions : List FilterDecision)
  | failure (message : String)
deriving DecidableEq

/-- The body of the `for (let attempt = 0; attempt <= maxRetries; attempt++)`
loop of `EmailFilteringChain.processBatchWithRetry`
(src/langchainIntegration.ts lines 162-199), recursing on the number of
remaining loop iterations (`maxRetries + 1 - a`, kept structural).
`attempts a` is the outcome of attempt number `a`; `rand a` is the
`Math.random()` draw consumed by `calculateDelay` at the start of attempt `a`.
The first component collects the backoff waits actually performed (one before
every attempt except attempt 0); the second is the returned decisions or the
error finally thrown. -/
def retryGo (cfg : RetryConfig) (attempts : ℕ → AttemptOutcome) (rand : ℕ → ℚ) :
    ℕ → ℕ → String → List ℤ × Except String (List FilterDecision)
  | 0, _, lastErr => ([], .error lastErr)
  | remaining + 1, a, lastErr =>
    let waits : List ℤ := if a = 0 then [] else [calculateDelay cfg a (rand a)]
    match attempts a with
    | .success ds => (waits, .ok ds)
    | .failure msg =>
      if isRetryableError msg then
        let rest := retryGo cfg attempts rand remaining (a + 1) msg
        (waits ++ rest.1, rest.2)
      else
        (waits, .error msg)

/-- `EmailFilteringChain.processBatchWithRetry` (src/langchainIntegration.ts
lines 162-199): run the attempt loop from attempt 0 with `maxRetries + 1`
iterations available; if the loop exhausts all attempts the last retryable
error is thrown (the initial `"Unknown error after retries"` is thrown only
on the unreachable path where no attempt ran). -/
def processBatchWithRetry (cfg : RetryConfig) (attempts : ℕ → AttemptOutcome)
    (rand : ℕ → ℚ) : List ℤ × Except String (List FilterDecision) :=
  retryGo cfg attempts rand (cfg.maxRetries + 1) 0 "Unknown error after retries"

/-- `BatchFilterResult` from src/types.ts.  The source stores each failed
batch's error as the string
`"Batch " + (i+1) + " failed after retries: " + message`; the pair
`(i, message)` of zero-based batch index and message is kept here so that
statements can speak about which batch an entry describes, and
`BatchFilterResult.errors` below renders exactly the source's strings. -/
structure BatchFilterResult where
  decisions : List FilterDecision
  processedCount : ℕ
  errorsIdx : List (ℕ × String)
deriving DecidableEq

/-- The `errors : string[]` field of the source's `BatchFilterResult`
(src/langchainIntegration.ts line 131). -/
def BatchFilterResult.errors (r : BatchFilterResult) : List String :=
  r.errorsIdx.map
    (fun p => "Batch " ++ toString (p.1 + 1) ++ " failed after retries: " ++ p.2)

/-- The `for (let i = 0; i < batches.length; i++)` loop of
`EmailFilteringChain.processBatches` (src/langchainIntegration.ts lines
108-157), processing the batches from index `i` on.  `classify i b` is the
attempt-outcome oracle for batch index `i` with content `b`, and `rand i` the
random draws its retries consume.  A successful batch appends its decisions
and adds `batch.length` to `processedCount`; a failed batch records one error
entry and contributes nothing else.  The source additionally sleeps between
batches (`calculateDelay(consecutiveFailures)`, plus a flat `maxDelayMs`
after three consecutive failures); those awaited sleeps return no value and
do not affect the returned `BatchFilterResult`, so they are not modelled. -/
def processBatchesGo (cfg : RetryConfig)
    (classify : ℕ → List EmailSummary → ℕ → AttemptOutcome)
    (rand : ℕ → ℕ → ℚ) : ℕ → List (List EmailSummary) → BatchFilterResult
  | _, [] => { decisions := [], processedCount := 0, errorsIdx := [] }
  | i, b :: bs =>
    let r := processBatchWithRetry cfg (classify i b) (rand i)
    let rest := processBatchesGo cfg classify rand (i + 1) bs
    match r.2 with
    | .ok ds =>
      { decisions := ds ++ rest.decisions
        processedCount := b.length + rest.processedCount
        errorsIdx := rest.errorsIdx }
    | .error msg =>
      { decisions := rest.decisions
        processedCount := rest.processedCount
        errorsIdx := (i, msg) :: rest.errorsIdx }

/-- `EmailFilteringChain.processBatches` (src/langchainIntegration.ts lines
108-157): process all batches starting at index 0. -/
def processBatches (cfg : RetryConfig)
    (classify : ℕ → List EmailSummary → ℕ → AttemptOutcome)
    (rand : ℕ → ℕ → ℚ) (batches : List (List EmailSummary)) : BatchFilterResult :=
  processBatchesGo cfg classify rand 0 batches

/-- `EmailFilteringChain.run` / `createChain` (src/langchainIntegration.ts
lines 51-72 and 266-273): prepare the emails, split them into batches of
`batchSize`, and process the batches. -/
def runChain (cfg : RetryConfig)
    (classify : ℕ → List EmailSummary → ℕ → AttemptOutcome)
    (rand : ℕ → ℕ → ℚ) (emails : List Email) (batchSize : ℕ) : BatchFilterResult :=
  processBatches cfg classify rand (batchEmails (prepareEmails emails) batchSize)

/-! ## Rule Store (src/rules.ts) -/

/-- `DEFAULT_RULES` (src/rules.ts lines 7-34). -/
def DEFAULT_RULES : List FilterRule :=
  [ { id := "spam-promotional"
      name := "Promotional Spam"
      description := "Delete obvious promotional and spam emails"
      condition := "Email contains promotional content, unsubscribe links, or marketing language"
      action := .delete
      priority := 1 }
  , { id := "newsletter-archive"
      name := "Newsletter Archive"
      description := "Archive newsletters for later reading"
      condition := "Email is a newsletter or digest"
      action := .archive
      priority := 2 }
  , { id := "important-keep"
      name := "Important Emails"
      description := "Keep important emails from known contacts"
      condition := "Email is from a known contact or contains urgent/important content"
      action := .keep
      priority := 3 } ]

/-- JavaScript `s.startsWith(p)`, on character lists. -/
def startsWithStr (s p : String) : Bool :=
  leadsWith p.toList s.toList

/-- `RulesManager.parseCustomRule` (src/rules.ts lines 65-90): infer the action
by case-insensitive prefix match of the rule text (the source lower-cases the
text and tests `startsWith`), defaulting to `keep`; the rule gets id
`custom-<index>` and priority `10 + index`. -/
def parseCustomRule (ruleStr : String) (index : ℕ) : FilterRule :=
  let lowerRule := String.mk (ruleStr.toList.map lowerChar)
  let action : FilterAction :=
    if startsWithStr lowerRule "delete" then .delete
    else if startsWithStr lowerRule "archive" then .archive
    else if startsWithStr lowerRule "keep" then .keep
    else if startsWithStr lowerRule "mark read" || startsWithStr lowerRule "mark_read" then
      .mark_read
    else .keep
  { id := "custom-" ++ toString index
    name := "Custom Rule " ++ toString (index + 1)
    description := ruleStr
    condition := ruleStr
    action := action
    priority := 10 + (index : ℤ) }

/-- The `RulesManager` constructor (src/rules.ts lines 42-46): the built-in
rules followed by the parsed custom rules (`parseCustomRule` never returns
`null`, so every custom text contributes a rule). -/
def initRules (customRules : List String) : List FilterRule :=
  DEFAULT_RULES ++ (customRules.enum.map (fun p => parseCustomRule p.2 p.1))

/-- `RulesManager.addRule` (src/rules.ts lines 114-117): append. -/
def addRule (rules : List FilterRule) (rule : FilterRule) : List FilterRule :=
  rules ++ [rule]

/-- `RulesManager.removeRule` (src/rules.ts lines 122-130): filter by id;
returns the new state and whether a rule was removed. -/
def removeRule (rules : List FilterRule) (ruleId : String) :
    List FilterRule × Bool :=
  let next := rules.filter (fun rule => rule.id != ruleId)
  (next, next.length < rules.length)

/-- Stable insertion of a rule into a list sorted by priority: `r` goes after
every element of strictly smaller priority and before the first element of
priority `≥ r.priority` (so among equal priorities, the element inserted on
top of an already-built sorted list comes first). -/
def insertByPriority (r : FilterRule) : List FilterRule → List FilterRule
  | [] => [r]
  | x :: xs =>
    if x.priority < r.priority then x :: insertByPriority r xs
    else r :: x :: xs

/-- Stable sort by ascending priority (insertion sort).  This models the
semantics of `[...this.rules].sort((a, b) => a.priority - b.priority)` in
`RulesManager.getRules`: ECMAScript's `Array.prototype.sort` is required to
be stable, and with the numeric comparator it orders by ascending priority
keeping equal-priority elements in their original relative order — exactly
the behaviour proved of this function below. -/
def sortByPriority (rules : List FilterRule) : List FilterRule :=
  rules.foldr insertByPriority []

/-- `RulesManager.getRules` (src/rules.ts lines 95-97): sort a copy of the
current rule list by ascending priority (stably). -/
def getRules (rules : List FilterRule) : List FilterRule :=
  sortByPriority rules

/-! ## Workflow Driver (src/emailFiltering.ts) -/

/-- Behaviour oracle for the Gmail client calls made by
`EmailFilteringAgent.executeAction`: each call takes a message id and
resolves with a success boolean (the client methods return `false` on
ordinary per-message failure rather than throwing). -/
structure GmailBehavior where
  deleteEmail : String → Bool
  archiveEmail : String → Bool
  markAsRead : String → Bool
  markAsProcessed : String → Bool

/-- Observable outcome of `EmailFilteringAgent.executeAction` for one
decision: the returned success boolean, and whether `markAsProcessed` was
invoked for the decision's message id. -/
structure ActionTrace where
  success : Bool
  markedProcessed : Bool
deriving DecidableEq

/-- `EmailFilteringAgent.executeAction` (src/emailFiltering.ts lines 193-227):
dispatch on the action.  For `keep`, the action itself is the
`markAsProcessed` call.  For `delete`/`archive`/`mark_read`, the matching
Gmail call runs first, and `markAsProcessed` is additionally invoked **only
when that call succeeded** (line 222: `if (success && decision.action !== "keep")`). -/
def executeAction (g : GmailBehavior) (decision : FilterDecision) : ActionTrace :=
  match decision.action with
  | .delete =>
    let success := g.deleteEmail decision.emailId
    { success := success, markedProcessed := success }
  | .archive =>
    let success := g.archiveEmail decision.emailId
    { success := success, markedProcessed := success }
  | .mark_read =>
    let success := g.markAsRead decision.emailId
    { success := success, markedProcessed := success }
  | .keep =>
    { success := g.markAsProcessed decision.emailId, markedProcessed := true }

/-- Number of messages sitting in batches that `processBatches` records as
failed (the quantity the spec adds to `decisions.length`), for the batch list
starting at index `i`. -/
def failedMessagesGo (cfg : RetryConfig)
    (classify : ℕ → List EmailSummary → ℕ → AttemptOutcome)
    (rand : ℕ → ℕ → ℚ) : ℕ → List (List EmailSummary) → ℕ
  | _, [] => 0
  | i, b :: bs =>
    (match (processBatchWithRetry cfg (classify i b) (rand i)).2 with
      | .ok _ => 0
      | .error _ => b.length) + failedMessagesGo cfg classify rand (i + 1) bs

/-- Messages in failed batches for a whole run (from batch index 0). -/
def failedMessages (cfg : RetryConfig)
    (classify : ℕ → List EmailSummary → ℕ → AttemptOutcome)
    (rand : ℕ → ℕ → ℚ) (batches : List (List EmailSummary)) : ℕ :=
  failedMessagesGo cfg classify rand 0 batches

/-! ## Helper lemmas -/

theorem parseResponse_length (content : ParsedResponse) (emails : List EmailSummary) :
    (parseResponse content emails).length = emails.length := by
  cases content <;> simp [parseResponse]

theorem analyzeEmails_length (emails : List EmailSummary) (backend : BackendResult) :
    (analyzeEmails emails backend).length = emails.length := by
  unfold analyzeEmails
  split
  · rename_i h
    simp_all [List.isEmpty_iff]
  · cases backend with
    | thrown => simp
    | ok content => exact parseResponse_length content emails

theorem lastDecisionFor_emailId (ds : List FilterDecision) (id : String)
    (d : FilterDecision) (h : lastDecisionFor ds id = some d) : d.emailId = id := by
  unfold lastDecisionFor at h
  obtain ⟨hne, hd⟩ := List.mem_getLast?_eq_getLast (show d ∈ _ from h)
  have hmem : d ∈ ds.filter (fun d => d.emailId == id) := hd ▸ List.getLast_mem hne
  have := (List.mem_filter.mp hmem).2
  simpa using this

theorem lastDecisionFor_eq_none (ds : List FilterDecision) (id : String)
    (h : ∀ d ∈ ds, d.emailId ≠ id) : lastDecisionFor ds id = none := by
  unfold lastDecisionFor
  have : ds.filter (fun d => d.emailId == id) = [] := by
    rw [List.filter_eq_nil_iff]
    intro d hd
    simpa using h d hd
  simp [this]

/-! ## Claim theorems -/

/-- C5: for every attempt number `a` and random draw `r`, the backoff delay
computed by `calculateDelay` equals
`⌊c + c * 0.25 * (2r - 1)⌋` where `c = min(baseDelayMs * 2^a, maxDelayMs)`:
exponential growth capped at `maxDelayMs` first, then a ±25% jitter of the
capped value, then floored to an integer. -/
theorem calculateDelay_closed_form (cfg : RetryConfig) (a : ℕ) (r : ℚ) :
    calculateDelay cfg a r =
      Int.floor (min (cfg.baseDelayMs * 2 ^ a) cfg.maxDelayMs
        + min (cfg.baseDelayMs * 2 ^ a) cfg.maxDelayMs * (1/4) * (2 * r - 1)) := by
  simp only [calculateDelay]
  congr 1
  ring

/-- C3: when the backend response cannot be parsed or fails schema validation,
every message of the batch receives the default decision with action `keep`
and confidence `0` — the output consists of synthesized defaults only, never
mixed with decisions taken from the broken payload. -/
theorem adapter_malformed_whole_batch_defaults (emails : List EmailSummary) :
    parseResponse .malformed emails = emails.map (fun e => defaultParseFailure e.id) ∧
    ∀ d ∈ parseResponse .malformed emails,
      d.action = FilterAction.keep ∧ d.confidence = 0 := by
  refine ⟨rfl, ?_⟩
  intro d hd
  simp only [parseResponse, List.mem_map] at hd
  obtain ⟨e, _, rfl⟩ := hd
  exact ⟨rfl, rfl⟩

/-- C2: for a non-empty batch and any backend payload, the adapter returns
exactly one decision per input message (same length, `i`-th decision carries
the `i`-th message's identifier), and a message whose identifier is absent
from the validated response receives the synthesized default decision with
action `keep` and confidence `0.5`. -/
theorem adapter_decision_per_message (emails : List EmailSummary)
    (hne : emails ≠ []) (ds : List FilterDecision) :
    (∀ backend, (analyzeEmails emails backend).length = emails.length) ∧
    (∀ i, i < emails.length →
      ((analyzeEmails emails (.ok (.valid ds))).getD i (defaultNoDecision "")).emailId
        = (emails.getD i default).id) ∧
    (∀ i, i < emails.length →
      (∀ d ∈ ds, d.emailId ≠ (emails.getD i default).id) →
      (analyzeEmails emails (.ok (.valid ds))).getD i (defaultNoDecision "")
        = defaultNoDecision (emails.getD i default).id) := by
  have hout : analyzeEmails emails (.ok (.valid ds))
      = emails.map (fun e => (lastDecisionFor ds e.id).getD (defaultNoDecision e.id)) := by
    unfold analyzeEmails
    split
    · rename_i h
      exact absurd (List.isEmpty_iff.mp h) hne
    · rfl
  have hval : ∀ (i : ℕ) (hi : i < emails.length),
      (analyzeEmails emails (.ok (.valid ds))).getD i (defaultNoDecision "")
        = (lastDecisionFor ds emails[i].id).getD (defaultNoDecision emails[i].id) := by
    intro i hi
    rw [hout, List.getD_eq_getElem?_getD, List.getElem?_map,
      List.getElem?_eq_getElem hi]
    rfl
  have hdef : ∀ (i : ℕ) (hi : i < emails.length), (emails.getD i default) = emails[i] := by
    intro i hi
    rw [List.getD_eq_getElem?_getD, List.getElem?_eq_getElem hi]
    rfl
  refine ⟨fun backend => analyzeEmails_length emails backend, ?_, ?_⟩
  · intro i hi
    rw [hval i hi, hdef i hi]
    cases hl : lastDecisionFor ds emails[i].id with
    | none => rfl
    | some d => simpa using lastDecisionFor_emailId ds _ d hl
  · intro i hi habs
    rw [hdef i hi] at habs
    rw [hval i hi, hdef i hi, lastDecisionFor_eq_none ds _ habs]
    rfl

/-- Witness for C2 at a concrete input: two messages, a response carrying a
decision only for the first; the second gets the keep/0.5 default. -/
theorem adapter_decision_per_message_witness :
    ([⟨"a", "x", "s", "p"⟩, ⟨"b", "y", "t", "q"⟩] : List EmailSummary) ≠ [] ∧
    ((∀ backend,
        (analyzeEmails [⟨"a", "x", "s", "p"⟩, ⟨"b", "y", "t", "q"⟩] backend).length
          = ([⟨"a", "x", "s", "p"⟩, ⟨"b", "y", "t", "q"⟩] : List EmailSummary).length) ∧
      (∀ i, i < ([⟨"a", "x", "s", "p"⟩, ⟨"b", "y", "t", "q"⟩] : List EmailSummary).length →
        ((analyzeEmails [⟨"a", "x", "s", "p"⟩, ⟨"b", "y", "t", "q"⟩]
            (.ok (.valid [⟨"a", .delete, "spam", 9/10⟩]))).getD i (defaultNoDecision "")).emailId
          = (([⟨"a", "x", "s", "p"⟩, ⟨"b", "y", "t", "q"⟩] : List EmailSummary).getD i default).id) ∧
      (∀ i, i < ([⟨"a", "x", "s", "p"⟩, ⟨"b", "y", "t", "q"⟩] : List EmailSummary).length →
        (∀ d ∈ ([⟨"a", .delete, "spam", 9/10⟩] : List FilterDecision),
          d.emailId ≠ (([⟨"a", "x", "s", "p"⟩, ⟨"b", "y", "t", "q"⟩] : List EmailSummary).getD i default).id) →
        (analyzeEmails [⟨"a", "x", "s", "p"⟩, ⟨"b", "y", "t", "q"⟩]
            (.ok (.valid [⟨"a", .delete, "spam", 9/10⟩]))).getD i (defaultNoDecision "")
          = defaultNoDecision (([⟨"a", "x", "s", "p"⟩, ⟨"b", "y", "t", "q"⟩] : List EmailSummary).getD i default).id)) :=
  ⟨by decide, adapter_decision_per_message _ (by decide) _⟩

/-- C10: the `batchEmails` splitting loop terminates exactly when the batch
size is at least 1 or the email list is empty; for a non-empty list and a
zero (or negative) batch size the loop counter never reaches the list length,
so the loop never terminates. -/
theorem batchEmails_terminates_iff (len : ℕ) (B : ℤ) :
    batchLoopTerminates len B ↔ (1 ≤ B ∨ len = 0) := by
  constructor
  · rintro ⟨n, hn⟩
    by_contra hc
    push_neg at hc
    obtain ⟨hB, hlen⟩ := hc
    have hB0 : B ≤ 0 := by omega
    have hnn : (n : ℤ) * B ≤ 0 :=
      mul_nonpos_iff.mpr (Or.inl ⟨by exact_mod_cast Nat.zero_le n, hB0⟩)
    have : (len : ℤ) ≤ 0 := le_trans hn hnn
    have : len = 0 := by exact_mod_cast le_antisymm this (by exact_mod_cast Nat.zero_le len)
    exact hlen this
  · rintro (hB | rfl)
    · refine ⟨len, ?_⟩
      calc (len : ℤ) = (len : ℤ) * 1 := by ring
        _ ≤ (len : ℤ) * B := by
          apply mul_le_mul_of_nonneg_left hB (by exact_mod_cast Nat.zero_le len)
    · exact ⟨0, by simp⟩

/-- C8 counterexample: a `delete` decision whose Gmail call fails is **not**
marked processed — `executeAction` skips `markAsProcessed` when the action
call returns `false`, refuting the claim that every executed decision marks
its message handled. -/
theorem executeAction_failed_action_not_marked :
    (executeAction
      { deleteEmail := fun _ => false
        archiveEmail := fun _ => false
        markAsRead := fun _ => false
        markAsProcessed := fun _ => true }
      { emailId := "m1", action := .delete, reason := "spam", confidence := 9/10 }).markedProcessed
      = false := rfl

/-- C8 (amended): `executeAction` invokes `markAsProcessed` for the decision's
message exactly when the action is `keep` (where the `markAsProcessed` call is
the action itself) or the executed Gmail action succeeded; a failed non-keep
action leaves the message unmarked, so it is re-fetched on a later run. -/
theorem executeAction_marked_iff_keep_or_success (g : GmailBehavior)
    (d : FilterDecision) :
    (executeAction g d).markedProcessed = true ↔
      (d.action = FilterAction.keep ∨ (executeAction g d).success = true) := by
  cases hd : d.action <;> simp [executeAction, hd]

theorem insertByPriority_split (r : FilterRule) (l : List FilterRule) :
    ∃ s t, l = s ++ t ∧ insertByPriority r l = s ++ r :: t ∧
      ∀ x ∈ s, x.priority < r.priority := by
  induction l with
  | nil => exact ⟨[], [], rfl, rfl, by simp⟩
  | cons x xs ih =>
    by_cases hx : x.priority < r.priority
    · obtain ⟨s, t, hst, hins, hlt⟩ := ih
      refine ⟨x :: s, t, by simp [hst], ?_, ?_⟩
      · simp [insertByPriority, hx, hins]
      · intro y hy
        rcases List.mem_cons.mp hy with rfl | hy
        · exact hx
        · exact hlt y hy
    · exact ⟨[], x :: xs, rfl, by simp [insertByPriority, hx], by simp⟩

theorem mem_insertByPriority (r y : FilterRule) (l : List FilterRule) :
    y ∈ insertByPriority r l ↔ y = r ∨ y ∈ l := by
  obtain ⟨s, t, hst, hins, _⟩ := insertByPriority_split r l
  subst hst
  rw [hins]
  simp [or_comm, or_assoc, or_left_comm]

theorem pairwise_insertByPriority (r : FilterRule) (l : List FilterRule)
    (hl : l.Pairwise (fun a b => a.priority ≤ b.priority)) :
    (insertByPriority r l).Pairwise (fun a b => a.priority ≤ b.priority) := by
  induction l with
  | nil => simp [insertByPriority]
  | cons x xs ih =>
    rw [List.pairwise_cons] at hl
    obtain ⟨hx, hxs⟩ := hl
    by_cases hlt : x.priority < r.priority
    · simp only [insertByPriority, if_pos hlt]
      rw [List.pairwise_cons]
      refine ⟨?_, ih hxs⟩
      intro y hy
      rcases (mem_insertByPriority r y xs).mp hy with rfl | hy
      · exact le_of_lt hlt
      · exact hx y hy
    · simp only [insertByPriority, if_neg hlt]
      rw [List.pairwise_cons]
      refine ⟨?_, List.pairwise_cons.mpr ⟨hx, hxs⟩⟩
      intro y hy
      rcases List.mem_cons.mp hy with rfl | hy
      · exact le_of_not_gt hlt
      · exact le_trans (le_of_not_gt hlt) (hx y hy)

theorem filter_insertByPriority (r : FilterRule) (l : List FilterRule) (p : ℤ) :
    (insertByPriority r l).filter (fun x => x.priority == p)
      = if r.priority = p
        then r :: l.filter (fun x => x.priority == p)
        else l.filter (fun x => x.priority == p) := by
  obtain ⟨s, t, hst, hins, hlt⟩ := insertByPriority_split r l
  subst hst
  rw [hins, List.filter_append, List.filter_append, List.filter_cons]
  by_cases hp : r.priority = p
  · have hs : s.filter (fun x => x.priority == p) = [] := by
      rw [List.filter_eq_nil_iff]
      intro x hx
      have := hlt x hx
      simp only [beq_iff_eq]
      omega
    simp [hp, hs]
  · simp [hp]

theorem perm_insertByPriority (r : FilterRule) (l : List FilterRule) :
    (insertByPriority r l).Perm (r :: l) := by
  obtain ⟨s, t, hst, hins, _⟩ := insertByPriority_split r l
  subst hst
  rw [hins]
  exact List.perm_middle

theorem sortByPriority_pairwise (l : List FilterRule) :
    (sortByPriority l).Pairwise (fun a b => a.priority ≤ b.priority) := by
  induction l with
  | nil => simp [sortByPriority]
  | cons x xs ih => exact pairwise_insertByPriority x _ ih

theorem sortByPriority_filter (l : List FilterRule) (p : ℤ) :
    (sortByPriority l).filter (fun x => x.priority == p)
      = l.filter (fun x => x.priority == p) := by
  induction l with
  | nil => rfl
  | cons x xs ih =>
    show (insertByPriority x (sortByPriority xs)).filter _ = _
    rw [filter_insertByPriority, List.filter_cons]
    by_cases hp : x.priority = p
    · simp [hp, ih]
    · simp [hp, ih]

theorem sortByPriority_perm (l : List FilterRule) :
    (sortByPriority l).Perm l := by
  induction l with
  | nil => exact List.Perm.refl []
  | cons x xs ih =>
    exact ((perm_insertByPriority x (sortByPriority xs)).trans (ih.cons x))

/-- C7: for every rule store state — any list of rules reachable by seeding
the built-ins, parsing custom rules, `addRule` and `removeRule` — `getRules`
returns a permutation of the stored rules that is sorted non-decreasing by
priority, and rules of equal priority keep their relative insertion order
(the subsequence at each priority `p` is exactly the stored subsequence at
`p`).  `getRules` is a pure function of the state (the source sorts a copy),
so repeated calls return the identical list. -/
theorem getRules_sorted_stable (rules : List FilterRule) :
    (getRules rules).Pairwise (fun a b => a.priority ≤ b.priority) ∧
    (∀ p : ℤ, (getRules rules).filter (fun x => x.priority == p)
      = rules.filter (fun x => x.priority == p)) ∧
    (getRules rules).Perm rules := by
  exact ⟨sortByPriority_pairwise rules,
    fun p => sortByPriority_filter rules p,
    sortByPriority_perm rules⟩

theorem calculateDelay_le_of_rand_lt_one (cfg : RetryConfig) (a : ℕ) (r : ℚ)
    (hbase : 0 ≤ cfg.baseDelayMs) (hmax : 0 ≤ cfg.maxDelayMs)
    (hr0 : 0 ≤ r) (hr1 : r < 1) :
    calculateDelay cfg a r ≤ Int.floor ((5/4 : ℚ) * cfg.maxDelayMs) := by
  simp only [calculateDelay]
  apply Int.floor_le_floor
  set c := min (cfg.baseDelayMs * 2 ^ a) cfg.maxDelayMs with hc
  have hc0 : 0 ≤ c := le_min (by positivity) hmax
  have hcmax : c ≤ cfg.maxDelayMs := min_le_right _ _
  have hj : c * (1/4) * (r * 2 - 1) ≤ c * (1/4) * 1 := by
    apply mul_le_mul_of_nonneg_left (by linarith) (by linarith)
  linarith

theorem retryGo_succ_success (cfg : RetryConfig) (attempts : ℕ → AttemptOutcome)
    (rand : ℕ → ℚ) (remaining a : ℕ) (e : String) (ds : List FilterDecision)
    (h : attempts a = .success ds) :
    retryGo cfg attempts rand (remaining + 1) a e
      = (if a = 0 then [] else [calculateDelay cfg a (rand a)], .ok ds) := by
  simp [retryGo, h]

theorem retryGo_succ_retryable (cfg : RetryConfig) (attempts : ℕ → AttemptOutcome)
    (rand : ℕ → ℚ) (remaining a : ℕ) (e m : String)
    (h : attempts a = .failure m) (hr : isRetryableError m = true) :
    retryGo cfg attempts rand (remaining + 1) a e
      = ((if a = 0 then [] else [calculateDelay cfg a (rand a)])
            ++ (retryGo cfg attempts rand remaining (a + 1) m).1,
          (retryGo cfg attempts rand remaining (a + 1) m).2) := by
  simp [retryGo, h, hr]

theorem retryGo_succ_fatal (cfg : RetryConfig) (attempts : ℕ → AttemptOutcome)
    (rand : ℕ → ℚ) (remaining a : ℕ) (e m : String)
    (h : attempts a = .failure m) (hr : isRetryableError m = false) :
    retryGo cfg attempts rand (remaining + 1) a e
      = (if a = 0 then [] else [calculateDelay cfg a (rand a)], .error m) := by
  simp [retryGo, h, hr]

theorem retryGo_retryable_then_success (cfg : RetryConfig)
    (attempts : ℕ → AttemptOutcome) (rand : ℕ → ℚ) (ds : List FilterDecision)
    (hfail : ∀ b, b < cfg.maxRetries →
      ∃ m, attempts b = .failure m ∧ isRetryableError m = true)
    (hsucc : attempts cfg.maxRetries = .success ds) :
    ∀ k a e, cfg.maxRetries - a = k → a ≤ cfg.maxRetries →
      (retryGo cfg attempts rand (cfg.maxRetries + 1 - a) a e).2 = .ok ds ∧
      (retryGo cfg attempts rand (cfg.maxRetries + 1 - a) a e).1.length
        = cfg.maxRetries - a + (if a = 0 then 0 else 1) ∧
      ∀ w ∈ (retryGo cfg attempts rand (cfg.maxRetries + 1 - a) a e).1,
        ∃ b, 1 ≤ b ∧ b ≤ cfg.maxRetries ∧ w = calculateDelay cfg b (rand b) := by
  intro k
  induction k with
  | zero =>
    intro a e hk ha
    have haeq : a = cfg.maxRetries := by omega
    have hfuel : cfg.maxRetries + 1 - a = 0 + 1 := by omega
    rw [hfuel, retryGo_succ_success cfg attempts rand 0 a e ds (haeq ▸ hsucc)]
    refine ⟨rfl, ?_, ?_⟩
    · by_cases h0 : a = 0 <;> simp [h0] <;> omega
    · intro w hw
      by_cases h0 : a = 0
      · simp [h0] at hw
      · simp only [if_neg h0, List.mem_singleton] at hw
        exact ⟨a, by omega, ha, hw⟩
  | succ k ih =>
    intro a e hk ha
    have halt : a < cfg.maxRetries := by omega
    obtain ⟨m, hm, hret⟩ := hfail a halt
    have hfuel : cfg.maxRetries + 1 - a = (cfg.maxRetries + 1 - (a + 1)) + 1 := by omega
    rw [hfuel, retryGo_succ_retryable cfg attempts rand _ a e m hm hret]
    obtain ⟨ihok, ihlen, ihmem⟩ := ih (a + 1) m (by omega) (by omega)
    refine ⟨ihok, ?_, ?_⟩
    · simp only [List.length_append, ihlen]
      by_cases h0 : a = 0 <;> simp [h0] <;> omega
    · intro w hw
      simp only [List.mem_append] at hw
      rcases hw with hw | hw
      · by_cases h0 : a = 0
        · simp [h0] at hw
        · simp only [if_neg h0, List.mem_singleton] at hw
          exact ⟨a, by omega, by omega, hw⟩
      · exact ihmem w hw

/-- C4 (amended): for every retry configuration with non-negative delays and
every random source drawing from `[0,1)`, if the Classifier fails with a
retryable error on exactly the first `maxRetries` attempts and succeeds on
the next attempt, then `processBatchWithRetry` returns that batch's decisions
successfully, performing exactly `maxRetries` backoff waits — but each wait
is only bounded by `⌊1.25 · maxDelayMs⌋`, not by `maxDelayMs`: the ±25%
jitter is applied **after** capping, so a wait can exceed `maxDelayMs` by up
to 25% (see `retry_wait_exceeds_maxDelay_example`). -/
theorem retry_success_with_bounded_waits (cfg : RetryConfig)
    (attempts : ℕ → AttemptOutcome) (rand : ℕ → ℚ) (ds : List FilterDecision)
    (hbase : 0 ≤ cfg.baseDelayMs) (hmax : 0 ≤ cfg.maxDelayMs)
    (hrand : ∀ b, 0 ≤ rand b ∧ rand b < 1)
    (hfail : ∀ b, b < cfg.maxRetries →
      ∃ m, attempts b = .failure m ∧ isRetryableError m = true)
    (hsucc : attempts cfg.maxRetries = .success ds) :
    (processBatchWithRetry cfg attempts rand).2 = .ok ds ∧
    (processBatchWithRetry cfg attempts rand).1.length = cfg.maxRetries ∧
    ∀ w ∈ (processBatchWithRetry cfg attempts rand).1,
      w ≤ Int.floor ((5/4 : ℚ) * cfg.maxDelayMs) := by
  have h := retryGo_retryable_then_success cfg attempts rand ds hfail hsucc
    cfg.maxRetries 0 "Unknown error after retries" (by omega) (Nat.zero_le _)
  obtain ⟨hok, hlen, hmem⟩ := h
  refine ⟨hok, by simpa using hlen, ?_⟩
  intro w hw
  obtain ⟨b, _, _, rfl⟩ := hmem w hw
  exact calculateDelay_le_of_rand_lt_one cfg b (rand b) hbase hmax
    (hrand b).1 (hrand b).2

/-- Witness for the amended C4 at a concrete input: `maxRetries = 2`, a
retryable `"429"` failure on attempts 0 and 1, success on attempt 2. -/
theorem retry_success_with_bounded_waits_witness :
    ((0 : ℚ) ≤ (RetryConfig.mk 2 1000 2000).baseDelayMs) ∧
    ((0 : ℚ) ≤ (RetryConfig.mk 2 1000 2000).maxDelayMs) ∧
    (∀ b : ℕ, (0 : ℚ) ≤ (fun _ : ℕ => (1/2 : ℚ)) b ∧ (fun _ : ℕ => (1/2 : ℚ)) b < 1) ∧
    (∀ b, b < (RetryConfig.mk 2 1000 2000).maxRetries →
      ∃ m, (fun a => if a < 2 then AttemptOutcome.failure "429" else .success []) b
        = .failure m ∧ isRetryableError m = true) ∧
    ((fun a => if a < 2 then AttemptOutcome.failure "429" else .success []) : ℕ → AttemptOutcome)
      (RetryConfig.mk 2 1000 2000).maxRetries = .success [] ∧
    ((processBatchWithRetry (RetryConfig.mk 2 1000 2000)
        (fun a => if a < 2 then AttemptOutcome.failure "429" else .success [])
        (fun _ => (1/2 : ℚ))).2 = .ok [] ∧
      (processBatchWithRetry (RetryConfig.mk 2 1000 2000)
        (fun a => if a < 2 then AttemptOutcome.failure "429" else .success [])
        (fun _ => (1/2 : ℚ))).1.length = (RetryConfig.mk 2 1000 2000).maxRetries ∧
      ∀ w ∈ (processBatchWithRetry (RetryConfig.mk 2 1000 2000)
        (fun a => if a < 2 then AttemptOutcome.failure "429" else .success [])
        (fun _ => (1/2 : ℚ))).1,
        w ≤ Int.floor ((5/4 : ℚ) * (RetryConfig.mk 2 1000 2000).maxDelayMs)) :=
  ⟨by norm_num, by norm_num, fun b => ⟨by norm_num, by norm_num⟩,
    fun b hb => ⟨"429", by simp [show b < 2 from hb], by decide⟩,
    by decide,
    retry_success_with_bounded_waits (RetryConfig.mk 2 1000 2000) _ _ []
      (by norm_num) (by norm_num) (fun b => ⟨by norm_num, by norm_num⟩)
      (fun b hb => ⟨"429", by simp [show b < 2 from hb], by decide⟩)
      (by decide)⟩

/-- C4 counterexample: with `maxRetries = 1`, `baseDelayMs = maxDelayMs =
1000` and a random draw of `0.9`, the Classifier failing with a retryable
`"timeout"` on attempt 0 and succeeding on attempt 1, the single backoff
wait before the successful retry is
`⌊1000 + 1000·0.25·(0.9·2−1)⌋ = 1200 > maxDelayMs = 1000`, refuting the
claim that each backoff wait is at most `maxDelay`. -/
theorem retry_wait_exceeds_maxDelay_example :
    (∀ b, b < (RetryConfig.mk 1 1000 1000).maxRetries →
      ∃ m, (fun a => if a = 0 then AttemptOutcome.failure "timeout" else .success []) b
          = AttemptOutcome.failure m ∧ isRetryableError m = true) ∧
    ((fun a => if a = 0 then AttemptOutcome.failure "timeout" else .success []) : ℕ → AttemptOutcome)
      (RetryConfig.mk 1 1000 1000).maxRetries = .success [] ∧
    (processBatchWithRetry (RetryConfig.mk 1 1000 1000)
      (fun a => if a = 0 then AttemptOutcome.failure "timeout" else .success [])
      (fun _ => (9/10 : ℚ))).2 = .ok [] ∧
    (processBatchWithRetry (RetryConfig.mk 1 1000 1000)
      (fun a => if a = 0 then AttemptOutcome.failure "timeout" else .success [])
      (fun _ => (9/10 : ℚ))).1 = [(1200 : ℤ)] ∧
    ¬ ((1200 : ℚ) ≤ (RetryConfig.mk 1 1000 1000).maxDelayMs) := by
  have hcd : calculateDelay (RetryConfig.mk 1 1000 1000) 1 ((9:ℚ)/10) = 1200 := by
    simp only [calculateDelay]
    norm_num
  refine ⟨fun b hb => ⟨"timeout", by simp [show b = 0 by simp at hb; omega], by decide⟩,
    by decide, rfl, ?_, by norm_num⟩
  have h1 : (processBatchWithRetry (RetryConfig.mk 1 1000 1000)
      (fun a => if a = 0 then AttemptOutcome.failure "timeout" else .success [])
      (fun _ => (9/10 : ℚ))).1
      = [calculateDelay (RetryConfig.mk 1 1000 1000) 1 ((9:ℚ)/10)] := rfl
  rw [h1, hcd]

theorem batchEmails_length_aux : ∀ (n : ℕ) (emails : List EmailSummary) (B : ℕ),
    emails.length ≤ n → 1 ≤ B →
    (batchEmails emails B).length = (emails.length + B - 1) / B := by
  intro n
  induction n with
  | zero =>
    intro emails B hlen hB
    have he : emails = [] := List.eq_nil_of_length_eq_zero (by omega)
    subst he
    simp only [batchEmails, List.length_nil]
    exact (Nat.div_eq_of_lt (by omega)).symm
  | succ n ih =>
    intro emails B hlen hB
    cases emails with
    | nil =>
      simp only [batchEmails, List.length_nil]
      exact (Nat.div_eq_of_lt (by omega)).symm
    | cons e es =>
      obtain ⟨B', rfl⟩ : ∃ B', B = B' + 1 := ⟨B - 1, by omega⟩
      rw [batchEmails]
      have hL1 : 1 ≤ (e :: es).length := by simp
      have hlen' : ((e :: es).drop (B' + 1)).length ≤ n := by
        rw [List.length_drop]
        simp only [List.length_cons]
        simp only [List.length_cons] at hlen
        omega
      have hrec := ih ((e :: es).drop (B' + 1)) (B' + 1) hlen' (by omega)
      rw [List.length_cons, hrec, List.length_drop]
      by_cases hcmp : (e :: es).length ≤ B' + 1
      · have h1 : (e :: es).length - (B' + 1) = 0 := by omega
        rw [h1]
        have h2 : (0 + (B' + 1) - 1) / (B' + 1) = 0 := Nat.div_eq_of_lt (by omega)
        rw [h2]
        symm
        apply Nat.div_eq_of_lt_le
        · simp only [List.length_cons] at hL1 ⊢
          omega
        · simp only [List.length_cons] at hcmp ⊢
          omega
      · have h3 : (e :: es).length - (B' + 1) + (B' + 1) - 1 = (e :: es).length - 1 := by
          omega
        have h4 : (e :: es).length + (B' + 1) - 1 = ((e :: es).length - 1) + (B' + 1) := by
          simp only [List.length_cons]
          omega
        rw [h3, h4, Nat.add_div_right _ (by omega)]

theorem batchEmails_batch_le_aux : ∀ (n : ℕ) (emails : List EmailSummary) (B : ℕ),
    emails.length ≤ n → 1 ≤ B →
    ∀ b ∈ batchEmails emails B, b.length ≤ B := by
  intro n
  induction n with
  | zero =>
    intro emails B hlen hB b hb
    have he : emails = [] := List.eq_nil_of_length_eq_zero (by omega)
    subst he
    simp [batchEmails] at hb
  | succ n ih =>
    intro emails B hlen hB b hb
    cases emails with
    | nil => simp [batchEmails] at hb
    | cons e es =>
      obtain ⟨B', rfl⟩ : ∃ B', B = B' + 1 := ⟨B - 1, by omega⟩
      rw [batchEmails] at hb
      rcases List.mem_cons.mp hb with rfl | hb
      · rw [List.length_take]
        exact min_le_left _ _
      · have hlen' : ((e :: es).drop (B' + 1)).length ≤ n := by
          rw [List.length_drop]
          simp only [List.length_cons]
          simp only [List.length_cons] at hlen
          omega
        exact ih ((e :: es).drop (B' + 1)) (B' + 1) hlen' hB b hb

theorem batchEmails_flatten_aux : ∀ (n : ℕ) (emails : List EmailSummary) (B : ℕ),
    emails.length ≤ n → 1 ≤ B →
    (batchEmails emails B).flatten = emails := by
  intro n
  induction n with
  | zero =>
    intro emails B hlen hB
    have he : emails = [] := List.eq_nil_of_length_eq_zero (by omega)
    subst he
    simp [batchEmails]
  | succ n ih =>
    intro emails B hlen hB
    cases emails with
    | nil => simp [batchEmails]
    | cons e es =>
      obtain ⟨B', rfl⟩ : ∃ B', B = B' + 1 := ⟨B - 1, by omega⟩
      rw [batchEmails]
      have hlen' : ((e :: es).drop (B' + 1)).length ≤ n := by
        rw [List.length_drop]
        simp only [List.length_cons]
        simp only [List.length_cons] at hlen
        omega
      rw [List.flatten_cons, ih ((e :: es).drop (B' + 1)) (B' + 1) hlen' hB,
        List.take_append_drop]

theorem retryGo_ok_attempt (cfg : RetryConfig) (attempts : ℕ → AttemptOutcome)
    (rand : ℕ → ℚ) (ds : List FilterDecision) :
    ∀ (fuel a : ℕ) (e : String),
      (retryGo cfg attempts rand fuel a e).2 = .ok ds →
      ∃ b, attempts b = .success ds := by
  intro fuel
  induction fuel with
  | zero => intro a e h; simp [retryGo] at h
  | succ f ih =>
    intro a e h
    cases hatt : attempts a with
    | success ds0 =>
      rw [retryGo_succ_success cfg attempts rand f a e ds0 hatt] at h
      simp only [Except.ok.injEq] at h
      exact ⟨a, by rw [hatt, h]⟩
    | failure m =>
      by_cases hret : isRetryableError m = true
      · rw [retryGo_succ_retryable cfg attempts rand f a e m hatt hret] at h
        exact ih (a + 1) m h
      · have hretf : isRetryableError m = false := by simpa using hret
        rw [retryGo_succ_fatal cfg attempts rand f a e m hatt hretf] at h
        simp at h

theorem processBatchesGo_cons_ok (cfg : RetryConfig)
    (classify : ℕ → List EmailSummary → ℕ → AttemptOutcome) (rand : ℕ → ℕ → ℚ)
    (i : ℕ) (b : List EmailSummary) (bs : List (List EmailSummary))
    (ds : List FilterDecision)
    (h : (processBatchWithRetry cfg (classify i b) (rand i)).2 = .ok ds) :
    processBatchesGo cfg classify rand i (b :: bs) =
      { decisions := ds ++ (processBatchesGo cfg classify rand (i + 1) bs).decisions
        processedCount := b.length + (processBatchesGo cfg classify rand (i + 1) bs).processedCount
        errorsIdx := (processBatchesGo cfg classify rand (i + 1) bs).errorsIdx } := by
  simp [processBatchesGo, h]

theorem processBatchesGo_cons_error (cfg : RetryConfig)
    (classify : ℕ → List EmailSummary → ℕ → AttemptOutcome) (rand : ℕ → ℕ → ℚ)
    (i : ℕ) (b : List EmailSummary) (bs : List (List EmailSummary)) (msg : String)
    (h : (processBatchWithRetry cfg (classify i b) (rand i)).2 = .error msg) :
    processBatchesGo cfg classify rand i (b :: bs) =
      { decisions := (processBatchesGo cfg classify rand (i + 1) bs).decisions
        processedCount := (processBatchesGo cfg classify rand (i + 1) bs).processedCount
        errorsIdx := (i, msg) :: (processBatchesGo cfg classify rand (i + 1) bs).errorsIdx } := by
  simp [processBatchesGo, h]

theorem failedMessagesGo_cons (cfg : RetryConfig)
    (classify : ℕ → List EmailSummary → ℕ → AttemptOutcome) (rand : ℕ → ℕ → ℚ)
    (i : ℕ) (b : List EmailSummary) (bs : List (List EmailSummary)) :
    failedMessagesGo cfg classify rand i (b :: bs) =
      (match (processBatchWithRetry cfg (classify i b) (rand i)).2 with
        | .ok _ => 0
        | .error _ => b.length) + failedMessagesGo cfg classify rand (i + 1) bs := rfl

theorem processBatchesGo_counting (cfg : RetryConfig)
    (classify : ℕ → List EmailSummary → ℕ → AttemptOutcome) (rand : ℕ → ℕ → ℚ)
    (hone : ∀ i b a ds, classify i b a = .success ds → ds.length = b.length) :
    ∀ (bs : List (List EmailSummary)) (i : ℕ),
      (processBatchesGo cfg classify rand i bs).decisions.length
          + failedMessagesGo cfg classify rand i bs
        = (bs.map List.length).sum := by
  intro bs
  induction bs with
  | nil => intro i; rfl
  | cons b bs ih =>
    intro i
    rw [failedMessagesGo_cons]
    cases hr : (processBatchWithRetry cfg (classify i b) (rand i)).2 with
    | ok ds =>
      have hlen : ds.length = b.length := by
        obtain ⟨a', ha'⟩ := retryGo_ok_attempt cfg (classify i b) (rand i) ds
          (cfg.maxRetries + 1) 0 "Unknown error after retries" hr
        exact hone i b a' ds ha'
      rw [processBatchesGo_cons_ok cfg classify rand i b bs ds hr]
      simp only [List.length_append, List.map_cons, List.sum_cons]
      have hih := ih (i + 1)
      omega
    | error msg =>
      rw [processBatchesGo_cons_error cfg classify rand i b bs msg hr]
      simp only [List.map_cons, List.sum_cons]
      have := ih (i + 1)
      omega

/-- C1: for every message list, batch size `B ≥ 1`, and Classifier honouring
the one-decision-per-message contract, the Orchestrator splits the messages
into `⌈N/B⌉` consecutive batches of at most `B` messages each (their
concatenation is the input), and `processBatches` — which never raises when a
batch exhausts its retries, recording the failure instead — returns a
`BatchFilterResult` whose `decisions.length` plus the number of messages
sitting in failed batches equals `N`. -/
theorem orchestrator_split_and_counting (cfg : RetryConfig)
    (classify : ℕ → List EmailSummary → ℕ → AttemptOutcome) (rand : ℕ → ℕ → ℚ)
    (emails : List EmailSummary) (B : ℕ) (hB : 1 ≤ B)
    (hone : ∀ i b a ds, classify i b a = .success ds → ds.length = b.length) :
    (batchEmails emails B).length = (emails.length + B - 1) / B ∧
    (∀ b ∈ batchEmails emails B, b.length ≤ B) ∧
    (batchEmails emails B).flatten = emails ∧
    (processBatches cfg classify rand (batchEmails emails B)).decisions.length
        + failedMessages cfg classify rand (batchEmails emails B)
      = emails.length := by
  refine ⟨batchEmails_length_aux emails.length emails B (le_refl _) hB,
    batchEmails_batch_le_aux emails.length emails B (le_refl _) hB,
    batchEmails_flatten_aux emails.length emails B (le_refl _) hB, ?_⟩
  have hcount := processBatchesGo_counting cfg classify rand hone (batchEmails emails B) 0
  have hflat : ((batchEmails emails B).map List.length).sum = emails.length := by
    rw [← List.length_flatten, batchEmails_flatten_aux emails.length emails B (le_refl _) hB]
  rw [processBatches, failedMessages, hcount, hflat]

/-- Witness for C1 at a concrete input: three messages, batch size 2
(`⌈3/2⌉ = 2` batches), a Classifier that succeeds with one default decision
per message. -/
theorem orchestrator_split_and_counting_witness :
    1 ≤ 2 ∧
    (∀ i b a ds,
      (fun (_ : ℕ) (b : List EmailSummary) (_ : ℕ) =>
          AttemptOutcome.success (b.map (fun e => defaultNoDecision e.id))) i b a
        = .success ds → ds.length = b.length) ∧
    ((batchEmails [⟨"a", "", "", ""⟩, ⟨"b", "", "", ""⟩, ⟨"c", "", "", ""⟩] 2).length
        = (([⟨"a", "", "", ""⟩, ⟨"b", "", "", ""⟩, ⟨"c", "", "", ""⟩] : List EmailSummary).length + 2 - 1) / 2 ∧
      (∀ b ∈ batchEmails [⟨"a", "", "", ""⟩, ⟨"b", "", "", ""⟩, ⟨"c", "", "", ""⟩] 2, b.length ≤ 2) ∧
      (batchEmails [⟨"a", "", "", ""⟩, ⟨"b", "", "", ""⟩, ⟨"c", "", "", ""⟩] 2).flatten
        = [⟨"a", "", "", ""⟩, ⟨"b", "", "", ""⟩, ⟨"c", "", "", ""⟩] ∧
      (processBatches DEFAULT_RETRY_CONFIG
          (fun (_ : ℕ) (b : List EmailSummary) (_ : ℕ) =>
            AttemptOutcome.success (b.map (fun e => defaultNoDecision e.id)))
          (fun _ _ => 0)
          (batchEmails [⟨"a", "", "", ""⟩, ⟨"b", "", "", ""⟩, ⟨"c", "", "", ""⟩] 2)).decisions.length
          + failedMessages DEFAULT_RETRY_CONFIG
            (fun (_ : ℕ) (b : List EmailSummary) (_ : ℕ) =>
              AttemptOutcome.success (b.map (fun e => defaultNoDecision e.id)))
            (fun _ _ => 0)
            (batchEmails [⟨"a", "", "", ""⟩, ⟨"b", "", "", ""⟩, ⟨"c", "", "", ""⟩] 2)
        = ([⟨"a", "", "", ""⟩, ⟨"b", "", "", ""⟩, ⟨"c", "", "", ""⟩] : List EmailSummary).length) :=
  ⟨by omega,
    fun i b a ds h => by
      simp only [AttemptOutcome.success.injEq] at h
      rw [← h]
      exact List.length_map _ _,
    orchestrator_split_and_counting DEFAULT_RETRY_CONFIG _ _ _ 2 (by omega)
      (fun i b a ds h => by
        simp only [AttemptOutcome.success.injEq] at h
        rw [← h]
        exact List.length_map _ _)⟩

theorem processBatchesGo_append (cfg : RetryConfig)
    (classify : ℕ → List EmailSummary → ℕ → AttemptOutcome) (rand : ℕ → ℕ → ℚ) :
    ∀ (xs ys : List (List EmailSummary)) (i : ℕ),
      processBatchesGo cfg classify rand i (xs ++ ys) =
        { decisions := (processBatchesGo cfg classify rand i xs).decisions
            ++ (processBatchesGo cfg classify rand (i + xs.length) ys).decisions
          processedCount := (processBatchesGo cfg classify rand i xs).processedCount
            + (processBatchesGo cfg classify rand (i + xs.length) ys).processedCount
          errorsIdx := (processBatchesGo cfg classify rand i xs).errorsIdx
            ++ (processBatchesGo cfg classify rand (i + xs.length) ys).errorsIdx } := by
  intro xs
  induction xs with
  | nil =>
    intro ys i
    simp [processBatchesGo]
  | cons b xs ih =>
    intro ys i
    have hidx : i + (b :: xs).length = (i + 1) + xs.length := by
      simp only [List.length_cons]
      omega
    rw [hidx]
    cases hr : (processBatchWithRetry cfg (classify i b) (rand i)).2 with
    | ok ds =>
      rw [List.cons_append,
        processBatchesGo_cons_ok cfg classify rand i b (xs ++ ys) ds hr,
        processBatchesGo_cons_ok cfg classify rand i b xs ds hr, ih ys (i + 1)]
      simp [List.append_assoc, Nat.add_assoc]
    | error msg =>
      rw [List.cons_append,
        processBatchesGo_cons_error cfg classify rand i b (xs ++ ys) msg hr,
        processBatchesGo_cons_error cfg classify rand i b xs msg hr, ih ys (i + 1)]
      simp [List.append_assoc, Nat.add_assoc]

theorem processBatchesGo_errorsIdx_bounds (cfg : RetryConfig)
    (classify : ℕ → List EmailSummary → ℕ → AttemptOutcome) (rand : ℕ → ℕ → ℚ) :
    ∀ (bs : List (List EmailSummary)) (i : ℕ) (p : ℕ × String),
      p ∈ (processBatchesGo cfg classify rand i bs).errorsIdx →
      i ≤ p.1 ∧ p.1 < i + bs.length := by
  intro bs
  induction bs with
  | nil => intro i p hp; simp [processBatchesGo] at hp
  | cons b bs ih =>
    intro i p hp
    cases hr : (processBatchWithRetry cfg (classify i b) (rand i)).2 with
    | ok ds =>
      rw [processBatchesGo_cons_ok cfg classify rand i b bs ds hr] at hp
      have := ih (i + 1) p (by simpa using hp)
      simp only [List.length_cons]
      omega
    | error msg =>
      rw [processBatchesGo_cons_error cfg classify rand i b bs msg hr] at hp
      simp only [List.mem_cons] at hp
      rcases hp with rfl | hp
      · simp only [List.length_cons]
        omega
      · have := ih (i + 1) p hp
        simp only [List.length_cons]
        omega

theorem processBatchWithRetry_fatal (cfg : RetryConfig)
    (attempts : ℕ → AttemptOutcome) (rand : ℕ → ℚ) (m : String)
    (h0 : attempts 0 = .failure m) (hnr : isRetryableError m = false) :
    processBatchWithRetry cfg attempts rand = ([], .error m) := by
  unfold processBatchWithRetry
  rw [retryGo_succ_fatal cfg attempts rand cfg.maxRetries 0 _ m h0 hnr]
  simp

/-- C6: for every batch `bj` whose Classifier always fails with a
non-retryable error (in any position: batches `pre` before it, `post` after
it), the Orchestrator aborts that batch on attempt 0, records **exactly one**
error entry for it in the `BatchFilterResult`, takes zero decisions from it,
and still processes `pre` and `post` exactly as it would have — the run
continues instead of aborting. -/
theorem fatal_batch_isolated (cfg : RetryConfig)
    (classify : ℕ → List EmailSummary → ℕ → AttemptOutcome) (rand : ℕ → ℕ → ℚ)
    (pre post : List (List EmailSummary)) (bj : List EmailSummary)
    (hfatal : ∀ a, ∃ m, classify pre.length bj a = .failure m ∧
      isRetryableError m = false) :
    ∃ m, classify pre.length bj 0 = .failure m ∧
      processBatches cfg classify rand (pre ++ bj :: post) =
        { decisions := (processBatchesGo cfg classify rand 0 pre).decisions
            ++ (processBatchesGo cfg classify rand (pre.length + 1) post).decisions
          processedCount := (processBatchesGo cfg classify rand 0 pre).processedCount
            + (processBatchesGo cfg classify rand (pre.length + 1) post).processedCount
          errorsIdx := (processBatchesGo cfg classify rand 0 pre).errorsIdx
            ++ (pre.length, m)
              :: (processBatchesGo cfg classify rand (pre.length + 1) post).errorsIdx } ∧
      (processBatches cfg classify rand (pre ++ bj :: post)).errorsIdx.countP
          (fun p => p.1 == pre.length) = 1 := by
  obtain ⟨m, hm, hnr⟩ := hfatal 0
  have hfat : (processBatchWithRetry cfg (classify pre.length bj) (rand pre.length)).2
      = .error m := by
    rw [processBatchWithRetry_fatal cfg _ _ m hm hnr]
  have hres : processBatches cfg classify rand (pre ++ bj :: post) =
      { decisions := (processBatchesGo cfg classify rand 0 pre).decisions
          ++ (processBatchesGo cfg classify rand (pre.length + 1) post).decisions
        processedCount := (processBatchesGo cfg classify rand 0 pre).processedCount
          + (processBatchesGo cfg classify rand (pre.length + 1) post).processedCount
        errorsIdx := (processBatchesGo cfg classify rand 0 pre).errorsIdx
          ++ (pre.length, m)
            :: (processBatchesGo cfg classify rand (pre.length + 1) post).errorsIdx } := by
    rw [processBatches, processBatchesGo_append cfg classify rand pre (bj :: post) 0]
    have h0 : (0 : ℕ) + pre.length = pre.length := Nat.zero_add _
    rw [h0, processBatchesGo_cons_error cfg classify rand pre.length bj post m hfat]
  refine ⟨m, hm, hres, ?_⟩
  rw [hres]
  simp only [List.countP_append, List.countP_cons]
  have hpre0 : (processBatchesGo cfg classify rand 0 pre).errorsIdx.countP
      (fun p => p.1 == pre.length) = 0 := by
    rw [List.countP_eq_zero]
    intro p hp
    have := processBatchesGo_errorsIdx_bounds cfg classify rand pre 0 p hp
    simp only [beq_iff_eq]
    omega
  have hpost0 : (processBatchesGo cfg classify rand (pre.length + 1) post).errorsIdx.countP
      (fun p => p.1 == pre.length) = 0 := by
    rw [List.countP_eq_zero]
    intro p hp
    have := processBatchesGo_errorsIdx_bounds cfg classify rand post (pre.length + 1) p hp
    simp only [beq_iff_eq]
    omega
  rw [hpre0, hpost0]
  simp

/-- Witness for C6 at a concrete input: three singleton batches, the middle
one (index 1) always failing with the non-retryable error `"boom"`. -/
theorem fatal_batch_isolated_witness :
    (∀ a, ∃ m,
      (fun (i : ℕ) (_ : List EmailSummary) (_ : ℕ) =>
          if i = 1 then AttemptOutcome.failure "boom" else AttemptOutcome.success [])
        ([[(⟨"m1", "", "", ""⟩ : EmailSummary)]] : List (List EmailSummary)).length
        [(⟨"m2", "", "", ""⟩ : EmailSummary)] a = .failure m ∧
      isRetryableError m = false) ∧
    (∃ m,
      (fun (i : ℕ) (_ : List EmailSummary) (_ : ℕ) =>
          if i = 1 then AttemptOutcome.failure "boom" else AttemptOutcome.success [])
        ([[(⟨"m1", "", "", ""⟩ : EmailSummary)]] : List (List EmailSummary)).length
        [(⟨"m2", "", "", ""⟩ : EmailSummary)] 0 = .failure m ∧
      processBatches DEFAULT_RETRY_CONFIG
        (fun (i : ℕ) (_ : List EmailSummary) (_ : ℕ) =>
          if i = 1 then AttemptOutcome.failure "boom" else AttemptOutcome.success [])
        (fun _ _ => 0)
        ([[(⟨"m1", "", "", ""⟩ : EmailSummary)]]
          ++ [(⟨"m2", "", "", ""⟩ : EmailSummary)] :: [[(⟨"m3", "", "", ""⟩ : EmailSummary)]]) =
        { decisions := (processBatchesGo DEFAULT_RETRY_CONFIG
              (fun (i : ℕ) (_ : List EmailSummary) (_ : ℕ) =>
                if i = 1 then AttemptOutcome.failure "boom" else AttemptOutcome.success [])
              (fun _ _ => 0) 0 [[(⟨"m1", "", "", ""⟩ : EmailSummary)]]).decisions
            ++ (processBatchesGo DEFAULT_RETRY_CONFIG
              (fun (i : ℕ) (_ : List EmailSummary) (_ : ℕ) =>
                if i = 1 then AttemptOutcome.failure "boom" else AttemptOutcome.success [])
              (fun _ _ => 0)
              (([[(⟨"m1", "", "", ""⟩ : EmailSummary)]] : List (List EmailSummary)).length + 1)
              [[(⟨"m3", "", "", ""⟩ : EmailSummary)]]).decisions
          processedCount := (processBatchesGo DEFAULT_RETRY_CONFIG
              (fun (i : ℕ) (_ : List EmailSummary) (_ : ℕ) =>
                if i = 1 then AttemptOutcome.failure "boom" else AttemptOutcome.success [])
              (fun _ _ => 0) 0 [[(⟨"m1", "", "", ""⟩ : EmailSummary)]]).processedCount
            + (processBatchesGo DEFAULT_RETRY_CONFIG
              (fun (i : ℕ) (_ : List EmailSummary) (_ : ℕ) =>
                if i = 1 then AttemptOutcome.failure "boom" else AttemptOutcome.success [])
              (fun _ _ => 0)
              (([[(⟨"m1", "", "", ""⟩ : EmailSummary)]] : List (List EmailSummary)).length + 1)
              [[(⟨"m3", "", "", ""⟩ : EmailSummary)]]).processedCount
          errorsIdx := (processBatchesGo DEFAULT_RETRY_CONFIG
              (fun (i : ℕ) (_ : List EmailSummary) (_ : ℕ) =>
                if i = 1 then AttemptOutcome.failure "boom" else AttemptOutcome.success [])
              (fun _ _ => 0) 0 [[(⟨"m1", "", "", ""⟩ : EmailSummary)]]).errorsIdx
            ++ (([[(⟨"m1", "", "", ""⟩ : EmailSummary)]] : List (List EmailSummary)).length, m)
              :: (processBatchesGo DEFAULT_RETRY_CONFIG
                (fun (i : ℕ) (_ : List EmailSummary) (_ : ℕ) =>
                  if i = 1 then AttemptOutcome.failure "boom" else AttemptOutcome.success [])
                (fun _ _ => 0)
                (([[(⟨"m1", "", "", ""⟩ : EmailSummary)]] : List (List EmailSummary)).length + 1)
                [[(⟨"m3", "", "", ""⟩ : EmailSummary)]]).errorsIdx } ∧
      (processBatches DEFAULT_RETRY_CONFIG
        (fun (i : ℕ) (_ : List EmailSummary) (_ : ℕ) =>
          if i = 1 then AttemptOutcome.failure "boom" else AttemptOutcome.success [])
        (fun _ _ => 0)
        ([[(⟨"m1", "", "", ""⟩ : EmailSummary)]]
          ++ [(⟨"m2", "", "", ""⟩ : EmailSummary)] :: [[(⟨"m3", "", "", ""⟩ : EmailSummary)]])).errorsIdx.countP
          (fun p => p.1 == ([[(⟨"m1", "", "", ""⟩ : EmailSummary)]] : List (List EmailSummary)).length)
        = 1) :=
  ⟨fun a => ⟨"boom", by simp, by decide⟩,
    fatal_batch_isolated DEFAULT_RETRY_CONFIG
      (fun (i : ℕ) (_ : List EmailSummary) (_ : ℕ) =>
        if i = 1 then AttemptOutcome.failure "boom" else AttemptOutcome.success [])
      (fun _ _ => 0)
      [[(⟨"m1", "", "", ""⟩ : EmailSummary)]]
      [[(⟨"m3", "", "", ""⟩ : EmailSummary)]]
      [(⟨"m2", "", "", ""⟩ : EmailSummary)]
      (fun a => ⟨"boom", by simp, by decide⟩)⟩

theorem processBatchWithRetry_first_success (cfg : RetryConfig)
    (attempts : ℕ → AttemptOutcome) (rand : ℕ → ℚ) (ds : List FilterDecision)
    (h : attempts 0 = .success ds) :
    processBatchWithRetry cfg attempts rand = ([], .ok ds) := by
  unfold processBatchWithRetry
  rw [retryGo_succ_success cfg attempts rand cfg.maxRetries 0 _ ds h]
  simp

theorem processBatchesGo_no_errors (cfg : RetryConfig)
    (classify : ℕ → List EmailSummary → ℕ → AttemptOutcome) (rand : ℕ → ℕ → ℚ)
    (hok : ∀ i b, ∃ ds,
      (processBatchWithRetry cfg (classify i b) (rand i)).2 = .ok ds) :
    ∀ (bs : List (List EmailSummary)) (i : ℕ),
      (processBatchesGo cfg classify rand i bs).errorsIdx = [] := by
  intro bs
  induction bs with
  | nil => intro i; rfl
  | cons b bs ih =>
    intro i
    obtain ⟨ds, hds⟩ := hok i b
    rw [processBatchesGo_cons_ok cfg classify rand i b bs ds hds]
    simpa using ih (i + 1)

/-- C9: `analyzeEmails` never raises — it is a total function of the batch
and the backend behaviour, and when the backend invocation throws it defaults
the whole batch to action `keep` with confidence `0`.  Consequently, when the
retry helper is wired to this adapter (every attempt resolves successfully
with the adapter's decisions), `processBatchWithRetry` returns on attempt 0
with no backoff waits — its retry and error paths are unreachable — and the
`BatchFilterResult` of the whole pipeline always has an empty error list. -/
theorem adapter_total_pipeline_no_errors (cfg : RetryConfig) (rand : ℕ → ℕ → ℚ)
    (backend : ℕ → BackendResult) (emails : List Email) (B : ℕ) (hB : 1 ≤ B) :
    (∀ es, analyzeEmails es BackendResult.thrown
        = es.map (fun e => defaultAnalysisFailure e.id)) ∧
    (∀ es b, (analyzeEmails es b).length = es.length) ∧
    (∀ i b, processBatchWithRetry cfg
        (fun _ => AttemptOutcome.success (analyzeEmails b (backend i))) (rand i)
      = ([], .ok (analyzeEmails b (backend i)))) ∧
    (runChain cfg
        (fun (i : ℕ) (b : List EmailSummary) (_ : ℕ) =>
          AttemptOutcome.success (analyzeEmails b (backend i)))
        rand emails B).errorsIdx = [] ∧
    (runChain cfg
        (fun (i : ℕ) (b : List EmailSummary) (_ : ℕ) =>
          AttemptOutcome.success (analyzeEmails b (backend i)))
        rand emails B).errors = [] := by
  have hthrown : ∀ es : List EmailSummary, analyzeEmails es BackendResult.thrown
      = es.map (fun e => defaultAnalysisFailure e.id) := by
    intro es
    unfold analyzeEmails
    split
    · rename_i h
      rw [List.isEmpty_iff.mp h]
      rfl
    · rfl
  have hretry : ∀ (i : ℕ) (b : List EmailSummary), processBatchWithRetry cfg
      (fun _ => AttemptOutcome.success (analyzeEmails b (backend i))) (rand i)
      = ([], .ok (analyzeEmails b (backend i))) := fun i b =>
    processBatchWithRetry_first_success cfg _ (rand i) _ rfl
  have hempty : (runChain cfg
      (fun (i : ℕ) (b : List EmailSummary) (_ : ℕ) =>
        AttemptOutcome.success (analyzeEmails b (backend i)))
      rand emails B).errorsIdx = [] := by
    rw [runChain, processBatches]
    exact processBatchesGo_no_errors cfg _ rand
      (fun i b => ⟨analyzeEmails b (backend i), by rw [hretry i b]⟩)
      (batchEmails (prepareEmails emails) B) 0
  refine ⟨hthrown, fun es b => analyzeEmails_length es b, hretry, hempty, ?_⟩
  rw [BatchFilterResult.errors, hempty]
  rfl

/-- Witness for C9 at a concrete input: one email, batch size 1, a backend
that throws for every batch. -/
theorem adapter_total_pipeline_no_errors_witness :
    1 ≤ 1 ∧
    ((∀ es : List EmailSummary, analyzeEmails es BackendResult.thrown
        = es.map (fun e => defaultAnalysisFailure e.id)) ∧
      (∀ (es : List EmailSummary) (b : BackendResult),
        (analyzeEmails es b).length = es.length) ∧
      (∀ (i : ℕ) (b : List EmailSummary), processBatchWithRetry DEFAULT_RETRY_CONFIG
          (fun (_ : ℕ) => AttemptOutcome.success
            (analyzeEmails b ((fun (_ : ℕ) => BackendResult.thrown) i)))
          ((fun (_ : ℕ) (_ : ℕ) => (0 : ℚ)) i)
        = ([], .ok (analyzeEmails b ((fun (_ : ℕ) => BackendResult.thrown) i)))) ∧
      (runChain DEFAULT_RETRY_CONFIG
          (fun (i : ℕ) (b : List EmailSummary) (_ : ℕ) =>
            AttemptOutcome.success (analyzeEmails b ((fun (_ : ℕ) => BackendResult.thrown) i)))
          (fun (_ : ℕ) (_ : ℕ) => (0 : ℚ))
          [⟨"e1", "t", "f", "t", "s", "b", "sn", [], true⟩] 1).errorsIdx = [] ∧
      (runChain DEFAULT_RETRY_CONFIG
          (fun (i : ℕ) (b : List EmailSummary) (_ : ℕ) =>
            AttemptOutcome.success (analyzeEmails b ((fun (_ : ℕ) => BackendResult.thrown) i)))
          (fun (_ : ℕ) (_ : ℕ) => (0 : ℚ))
          [⟨"e1", "t", "f", "t", "s", "b", "sn", [], true⟩] 1).errors = []) :=
  ⟨by omega,
    adapter_total_pipeline_no_errors DEFAULT_RETRY_CONFIG (fun (_ : ℕ) (_ : ℕ) => (0 : ℚ))
      (fun (_ : ℕ) => BackendResult.thrown)
      [⟨"e1", "t", "f", "t", "s", "b", "sn", [], true⟩] 1 (by omega)⟩
